import Mathlib

/-!
Verification development for the capture-diff-and-stream pipeline
(src-tauri: capture/screen.rs, capture/audio.rs, ai/azure_vision.rs,
ai/azure_audio.rs, stream_manager.rs).

Machine integers are modelled by Nat/Int (with explicit reduction modulo
2 ^ 64 where the u64 counter wraps); f32/f64 sample arithmetic is modelled
by exact rationals or reals, as noted on each definition.
-/

/-! ## Bit utilities (u64 hashes)

Rust `count_ones` on `u64`, modelled on Nat with a fuel-structural
recursion (fuel = the number itself, always sufficient since the value
halves each step). -/

def popCountAux : Nat → Nat → Nat
  | 0, _ => 0
  | fuel + 1, n => if n = 0 then 0 else n % 2 + popCountAux fuel (n / 2)

def popCount (n : Nat) : Nat := popCountAux n n

/-- Model of `hamming_distance` (capture/screen.rs line 274):
`(a ^ b).count_ones()`. -/
def hamming_distance (a b : Nat) : Nat := popCount (Nat.xor a b)

/-! ## Frame differencer (capture/screen.rs) -/

/-- Model of `compute_average_hash` (capture/screen.rs lines 254-271),
taken from the point after `resize_exact(8, 8, Triangle)` and `to_luma8`:
the argument is the 64-entry raster-scan list of 8x8 luminance values
(each in 0..=255).  Mean brightness uses the integer division `sum / 64`
of the source; bit i is set when pixel i is strictly brighter than the
mean (`hash |= 1 << i`). -/
def compute_average_hash (gray : List Nat) : Nat :=
  let sum := gray.sum
  let mean := sum / 64
  gray.enum.foldl (fun h ip => if ip.2 > mean then h ||| (1 <<< ip.1) else h) 0

/-- The 8x8 luminance grid of a uniformly bright image (every cell 255). -/
def brightGrid : List Nat := List.replicate 64 255

/-- The 8x8 luminance grid of a uniformly dark image (every cell 0). -/
def darkGrid : List Nat := List.replicate 64 0

/-- The 8x8 luminance grid of the half-dark/half-bright split image used by
the tests in capture/screen.rs (left half black, right half white): each of
the 8 rows is 4 dark cells followed by 4 bright cells. -/
def splitGrid : List Nat :=
  (List.replicate 8 ([0, 0, 0, 0, 255, 255, 255, 255] : List Nat)).flatten

/-- Payload data produced by an emitted frame.  Of the fields of
`FramePayload` only `diff_pct` is determined by the diff gate itself
(`data`, `width`, `height`, `timestamp` come from the captured image and
the clock); the gate model therefore carries `diff_pct` alone, as the
exact rational `distance / 64 * 100` the source computes in f64 (exact:
the operands are small integers and a division by a power of two). -/
structure FramePayloadM where
  diff_pct : ℚ
  deriving Repr, DecidableEq

/-- Model of the hash-diff gate of `capture_frame`
(capture/screen.rs lines 170-243), from the point where the screenshot has
been taken and hashed: given the hash of the current frame and the stored
previous hash, the source computes the Hamming distance, unconditionally
overwrites the stored hash (`*prev = current_hash`), and returns `None`
when `distance < 5`, otherwise the encoded payload.  The returned pair is
(payload option, new stored hash).  The earlier error returns of the
source (monitor enumeration/capture failure) happen before the hash is
computed and leave the stored hash untouched. -/
def capture_frame (current_hash last_hash : Nat) : Option FramePayloadM × Nat :=
  let distance := hamming_distance current_hash last_hash
  let diff_pct : ℚ := (distance : ℚ) / 64 * 100
  if distance < 5 then (none, current_hash)
  else (some ⟨diff_pct⟩, current_hash)

/-! ## Audio DSP unit (capture/audio.rs)

Samples are f32/f64 in the source; here they are exact rationals (the
claims exercised below only involve values and rates at which the f64
arithmetic of the source is exact). -/

/-- Model of `resample` (capture/audio.rs lines 294-319): identity when the
rates match, otherwise linear interpolation at positions `i * ratio` with
`ratio = from_rate / to_rate` and output length
`ceil(input_len / ratio)`.  `src_pos as usize` truncates (floor, the value
is nonnegative); the guarded `input[idx]` access of the source is
represented by `List.get` with the bound supplied by the guard, and the
fallback `input.get(idx).copied().unwrap_or(0.0)` by `getD`. -/
def resample (input : List ℚ) (fromRate toRate : Nat) : List ℚ :=
  if fromRate = toRate then input
  else
    let ratio : ℚ := (fromRate : ℚ) / (toRate : ℚ)
    let outputLen : Nat := (⌈(input.length : ℚ) / ratio⌉).toNat
    (List.range outputLen).map (fun (i : Nat) =>
      let srcPos : ℚ := (i : ℚ) * ratio
      let idx : Nat := (⌊srcPos⌋).toNat
      let frac : ℚ := srcPos - (idx : ℚ)
      if h : idx + 1 < input.length then
        input.get ⟨idx, by omega⟩ * (1 - frac) + input.get ⟨idx + 1, h⟩ * frac
      else
        ((input.get? idx).getD 0))

/-- Model of `compute_rms` (capture/audio.rs lines 323-329) over the reals:
0 for empty input, else `sqrt(mean of squares) / 32767` (`i16::MAX`).
The input samples are the i16 values of the source, as integers. -/
noncomputable def compute_rms (samples : List ℤ) : ℝ :=
  if samples = [] then 0
  else Real.sqrt ((samples.map (fun s => ((s : ℝ)) ^ 2)).sum / (samples.length : ℝ)) / 32767

/-! ## Claims C2, C3, C8, C9 -/

/-- C2: for every evaluated frame, `capture_frame` overwrites the stored
last hash with the newly computed hash (also for frames classified as
skip), and it returns no payload exactly when the Hamming distance between
the new hash and the previous hash is strictly below 5. -/
theorem capture_frame_updates_hash_and_gates (cur prev : Nat) :
    (capture_frame cur prev).2 = cur ∧
    ((capture_frame cur prev).1 = none ↔ hamming_distance cur prev < 5) := by
  by_cases h : hamming_distance cur prev < 5 <;> simp [capture_frame, h]

/-- C3 counterexample: the three hashes are not pairwise distinct — the
uniformly bright grid and the uniformly dark grid both hash to the same
value (no cell is strictly brighter than the mean of a uniform image, so
both hashes are 0). -/
theorem average_hash_not_pairwise_distinct :
    ¬ (compute_average_hash brightGrid ≠ compute_average_hash darkGrid ∧
       compute_average_hash brightGrid ≠ compute_average_hash splitGrid ∧
       compute_average_hash darkGrid ≠ compute_average_hash splitGrid) := by
  intro h
  exact h.1 (by decide)

/-- C3 amended: the split image hashes differently from both uniform
images, but the uniformly bright and uniformly dark images collide (both
hash to 0). -/
theorem average_hash_split_distinct_uniform_collide :
    compute_average_hash splitGrid ≠ compute_average_hash brightGrid ∧
    compute_average_hash splitGrid ≠ compute_average_hash darkGrid ∧
    compute_average_hash brightGrid = compute_average_hash darkGrid := by
  refine ⟨by decide, by decide, by decide⟩

/-- Helper: the exact ceiling of a natural number halved, as the natural
number `(n + 1) / 2`. -/
theorem ceil_half_toNat (n : Nat) : (⌈(n : ℚ) / 2⌉).toNat = (n + 1) / 2 := by
  rcases Nat.even_or_odd n with ⟨k, hk⟩ | ⟨k, hk⟩
  · subst hk
    have h : ((k + k : Nat) : ℚ) / 2 = ((k : Int) : ℚ) := by push_cast; ring
    rw [h, Int.ceil_intCast]
    omega
  · subst hk
    have h : ((2 * k + 1 : Nat) : ℚ) / 2 = (1 : ℚ) / 2 + ((k : Int) : ℚ) := by
      push_cast; ring
    rw [h, Int.ceil_add_int]
    have h1 : ⌈(1 : ℚ) / 2⌉ = 1 := by
      rw [Int.ceil_eq_iff]
      norm_num
    rw [h1]
    omega

/-- C8: resampling with equal source and target rates returns the input
unchanged; with differing rates the output length is
`ceil(input_length / (from_rate / to_rate))`; halving the rate yields
`(N + 1) / 2 = ceil(N / 2)` samples (within one of N / 2); empty input
yields empty output (and the embedding is total, so no panic is
possible). -/
theorem resample_length_spec (input : List ℚ) (fromRate toRate : Nat) :
    (fromRate = toRate → resample input fromRate toRate = input) ∧
    (fromRate ≠ toRate →
      (resample input fromRate toRate).length
        = (⌈(input.length : ℚ) / ((fromRate : ℚ) / (toRate : ℚ))⌉).toNat) ∧
    (resample [] fromRate toRate = []) ∧
    ((resample input 48000 24000).length = (input.length + 1) / 2) := by
  refine ⟨fun h => by simp [resample, h], fun h => ?_, ?_, ?_⟩
  · unfold resample
    rw [if_neg h]
    simp only [List.length_map, List.length_range]
  · by_cases h : fromRate = toRate
    · simp [resample, h]
    · unfold resample
      rw [if_neg h]
      simp
  · have h48 : (48000 : Nat) ≠ 24000 := by decide
    unfold resample
    rw [if_neg h48]
    simp only [List.length_map, List.length_range]
    have hr : ((48000 : Nat) : ℚ) / ((24000 : Nat) : ℚ) = 2 := by norm_num
    rw [hr]
    exact ceil_half_toNat input.length

/-- C8 witness: the resampling facts instantiated at a concrete buffer and
at the concrete rates 48000 and 24000. -/
theorem resample_length_spec_witness :
    resample [(1 : ℚ), 2, 3] 48000 48000 = [(1 : ℚ), 2, 3] ∧
    (resample [(1 : ℚ), 2, 3] 48000 24000).length
      = (⌈((3 : Nat) : ℚ) / (((48000 : Nat) : ℚ) / ((24000 : Nat) : ℚ))⌉).toNat := by
  constructor
  · exact (resample_length_spec [(1 : ℚ), 2, 3] 48000 48000).1 rfl
  · exact (resample_length_spec [(1 : ℚ), 2, 3] 48000 24000).2.1 (by decide)

/-- C9: evidence of the divergence between `compute_rms` and its own
documented contract (a value in the range 0.0 to 1.0, as the range claim
of the specification also states): a buffer holding the minimum 16-bit
sample -32768 produces the RMS value 32768 / 32767, which is strictly
greater than 1, because the normalisation divides by the maximum positive
value 32767 while the magnitude of the minimum sample is 32768. -/
theorem compute_rms_exceeds_one_at_i16_min :
    compute_rms [(-32768 : ℤ)] = 32768 / 32767 ∧
    (1 : ℝ) < compute_rms [(-32768 : ℤ)] := by
  have hv : compute_rms [(-32768 : ℤ)] = 32768 / 32767 := by
    unfold compute_rms
    rw [if_neg (by simp)]
    have h1 : ((([(-32768 : ℤ)].map (fun s => ((s : ℝ)) ^ 2)).sum)
        / (([(-32768 : ℤ)].length : ℕ) : ℝ)) = (32768 : ℝ) ^ 2 := by
      norm_num
    rw [h1, Real.sqrt_sq (by norm_num)]
  refine ⟨hv, ?_⟩
  rw [hv]
  rw [lt_div_iff₀ (by norm_num : (0 : ℝ) < 32767)]
  norm_num

/-! ## JSON value model and parser

Model of the serde_json values and of `serde_json::from_str` as used by the
two transport parsers.  The model covers null, booleans, integer numbers,
strings (with the common single-character escapes), arrays and objects —
the vocabulary the backends emit in the events the parsers classify.
Parsing is by recursive descent; recursion is fuel-structural (object and
array bodies are parsed one nesting level down, members and elements with
a separate fuel bounded by the remaining length), so every definition
reduces by kernel computation. -/

inductive Json where
  | null
  | bool (b : Bool)
  | num (n : Int)
  | str (s : String)
  | arr (elems : List Json)
  | obj (fields : List (String × Json))
  deriving Inhabited

def quoteChar : Char := Char.ofNat 34

def backslashChar : Char := Char.ofNat 92

def lbraceChar : Char := Char.ofNat 123

def rbraceChar : Char := Char.ofNat 125

def isWsChar (c : Char) : Bool := c = ' ' || c = '\t' || c = '\n' || c = '\r'

def skipWs : List Char → List Char
  | [] => []
  | c :: rest => if isWsChar c then skipWs rest else c :: rest

/-- Read the characters of a JSON string body up to the closing quote,
decoding the single-character escapes. -/
def parseStringChars : Nat → List Char → Option (List Char × List Char)
  | 0, _ => none
  | _ + 1, [] => none
  | fuel + 1, c :: rest =>
    if c = quoteChar then some ([], rest)
    else if c = backslashChar then
      match rest with
      | [] => none
      | e :: rest2 =>
        let decoded :=
          if e = 'n' then '\n' else if e = 't' then '\t'
          else if e = 'r' then '\r' else e
        match parseStringChars fuel rest2 with
        | some (s, r) => some (decoded :: s, r)
        | none => none
    else
      match parseStringChars fuel rest with
      | some (s, r) => some (c :: s, r)
      | none => none

def takeDigits : List Char → List Char × List Char
  | [] => ([], [])
  | c :: rest =>
    if c.isDigit then
      let (ds, r) := takeDigits rest
      (c :: ds, r)
    else ([], c :: rest)

def digitsToNat (ds : List Char) : Nat :=
  ds.foldl (fun acc c => acc * 10 + (c.toNat - 48)) 0

/-- Parse the members of an object, the opening brace already consumed;
`pv` parses one value (the value parser one nesting level down). -/
def parseMembersWith (pv : List Char → Option (Json × List Char)) :
    Nat → List Char → Option (List (String × Json) × List Char)
  | 0, _ => none
  | _ + 1, [] => none
  | fuel + 1, c :: rest =>
    if isWsChar c then parseMembersWith pv fuel rest
    else if c = rbraceChar then some ([], rest)
    else if c = quoteChar then
      match parseStringChars (rest.length + 1) rest with
      | none => none
      | some (key, r1) =>
        match skipWs r1 with
        | ':' :: r3 =>
          match pv r3 with
          | none => none
          | some (v, r4) =>
            match skipWs r4 with
            | ',' :: r6 =>
              match parseMembersWith pv fuel r6 with
              | none => none
              | some (fields, r7) => some ((String.mk key, v) :: fields, r7)
            | c2 :: r6 =>
              if c2 = rbraceChar then some ([(String.mk key, v)], r6) else none
            | [] => none
        | _ => none
    else none

/-- Parse the elements of an array, the opening bracket already consumed. -/
def parseElemsWith (pv : List Char → Option (Json × List Char)) :
    Nat → List Char → Option (List Json × List Char)
  | 0, _ => none
  | _ + 1, [] => none
  | fuel + 1, c :: rest =>
    if isWsChar c then parseElemsWith pv fuel rest
    else if c = ']' then some ([], rest)
    else
      match pv (c :: rest) with
      | none => none
      | some (v, r1) =>
        match skipWs r1 with
        | ',' :: r2 =>
          match parseElemsWith pv fuel r2 with
          | none => none
          | some (vs, r3) => some (v :: vs, r3)
        | c2 :: r2 => if c2 = ']' then some ([v], r2) else none
        | [] => none

def parseValueAux : Nat → List Char → Option (Json × List Char)
  | 0, _ => none
  | depth + 1, cs =>
    match skipWs cs with
    | [] => none
    | c :: rest =>
      if c = quoteChar then
        match parseStringChars (rest.length + 1) rest with
        | some (s, r) => some (.str (String.mk s), r)
        | none => none
      else if c = lbraceChar then
        match parseMembersWith (parseValueAux depth) (rest.length + 1) rest with
        | some (fields, r) => some (.obj fields, r)
        | none => none
      else if c = '[' then
        match parseElemsWith (parseValueAux depth) (rest.length + 1) rest with
        | some (vs, r) => some (.arr vs, r)
        | none => none
      else if c = 't' then
        match rest with
        | 'r' :: 'u' :: 'e' :: r => some (.bool true, r)
        | _ => none
      else if c = 'f' then
        match rest with
        | 'a' :: 'l' :: 's' :: 'e' :: r => some (.bool false, r)
        | _ => none
      else if c = 'n' then
        match rest with
        | 'u' :: 'l' :: 'l' :: r => some (.null, r)
        | _ => none
      else if c = '-' then
        let (ds, r) := takeDigits rest
        if ds = [] then none else some (.num (-(digitsToNat ds : Int)), r)
      else if c.isDigit then
        let (ds, r) := takeDigits (c :: rest)
        some (.num ((digitsToNat ds : Int)), r)
      else none

/-- Model of `serde_json::from_str`: parse one complete JSON document,
rejecting trailing non-whitespace. -/
def jsonParseChars (cs : List Char) : Option Json :=
  match parseValueAux (cs.length + 1) cs with
  | some (v, rest) => if skipWs rest = [] then some v else none
  | none => none

/-- Model of serde_json `Value::get` on an object (field lookup). -/
def Json.get : Json → String → Option Json
  | .obj fields, key => lookupField fields key
  | _, _ => none
where lookupField : List (String × Json) → String → Option Json
  | [], _ => none
  | (k, v) :: rest, key => if k = key then some v else lookupField rest key

/-- Model of serde_json `Value::as_str`. -/
def Json.asStr : Json → Option String
  | .str s => some s
  | _ => none

/-- Model of serde_json `Value::pointer` restricted to object paths, the
only use in the source (`/response/id`, `/error/message`, `/error/code`). -/
def Json.pointerAt (j : Json) (path : List String) : Option Json :=
  path.foldl (fun acc k => acc.bind (fun v => Json.get v k)) (some j)

/-! ## Error taxonomy (ai/types.rs) -/

/-- Model of `AiError` (ai/types.rs lines 32-43). -/
inductive AiError where
  | connectionError (msg : String)
  | authError (msg : String)
  | rateLimited (retryAfterMs : Nat)
  | modelError (msg : String)
  | invalidResponse (msg : String)
  deriving Repr, DecidableEq

/-- Model of the `Display` rendering of `AiError` (the thiserror format
strings of ai/types.rs; the em dash of the rate-limit message is rendered
here as a plain dash). -/
def renderAiError : AiError → String
  | .connectionError m => "Connection failed: " ++ m
  | .authError m => "Authentication failed: " ++ m
  | .rateLimited ms => "Rate limited - retry after " ++ toString ms ++ "ms"
  | .modelError m => "Model error: " ++ m
  | .invalidResponse m => "Invalid response: " ++ m

/-- The serde_json diagnostic text interpolated into parse-error messages,
abstracted to one representative string (its exact content is irrelevant
to every claim). -/
def jsonErrText : String := "expected value"

/-! ## Character-list helpers shared by the transport parsers -/

/-- Model of `trim_end_matches(backslash-r)`: remove every trailing
carriage return. -/
def dropTrailingCr (l : List Char) : List Char :=
  (l.reverse.dropWhile (fun c => c = '\r')).reverse

/-- Model of `str::trim` (ASCII whitespace suffices for the inputs the
parsers see). -/
def trimChars (l : List Char) : List Char :=
  ((l.dropWhile (fun c => isWsChar c)).reverse.dropWhile (fun c => isWsChar c)).reverse

/-- Model of `buffer.find(newline)` plus the split into the line before the
newline and the remainder after it: `none` when the buffer holds no
complete line. -/
def breakLine : List Char → Option (List Char × List Char)
  | [] => none
  | c :: rest =>
    if c = '\n' then some ([], rest)
    else
      match breakLine rest with
      | some (line, r) => some (c :: line, r)
      | none => none

/-- Model of `str::strip_prefix` over character lists (first argument the
pattern, second the string). -/
def dropPrefixChars : List Char → List Char → Option (List Char)
  | [], l => some l
  | _ :: _, [] => none
  | p :: ps, c :: cs => if p = c then dropPrefixChars ps cs else none

/-- Model of `str::contains` (substring test) over character lists. -/
def containsSubList : List Char → List Char → Bool
  | [], pat => pat.isEmpty
  | c :: rest, pat => pat.isPrefixOf (c :: rest) || containsSubList rest pat

def strContains (hay pat : String) : Bool := containsSubList hay.toList pat.toList

/-! ## SSE parser for the vision stream (ai/azure_vision.rs) -/

/-- Model of the `ParseResult` classification (ai/azure_vision.rs
lines 205-211). -/
inductive ParseResult where
  | delta (text : String)
  | responseId (id : String)
  | done
  | skip
  | error (e : AiError)
  deriving Repr, DecidableEq

/-- Model of `parse_sse_data` (ai/azure_vision.rs lines 213-256), over the
payload characters of one `data:` line. -/
def parse_sse_data (data : List Char) : ParseResult :=
  let trimmed := trimChars data
  if trimmed = "[DONE]".toList then .done
  else
    match jsonParseChars trimmed with
    | none => .error (.invalidResponse ("Invalid JSON in SSE: " ++ jsonErrText))
    | some parsed =>
      let eventType := ((parsed.get "type").bind Json.asStr).getD ""
      if eventType = "response.output_text.delta" then
        let delta := ((parsed.get "delta").bind Json.asStr).getD ""
        if delta = "" then .skip else .delta delta
      else if eventType = "response.created" then
        match (parsed.pointerAt ["response", "id"]).bind Json.asStr with
        | some id => .responseId id
        | none => .skip
      else if eventType = "response.output_text.done" ∨ eventType = "response.completed" then
        .done
      else .skip

/-- Model of `ResponsesTextStream` (ai/azure_vision.rs lines 180-196).
`buffer` and `done` mirror the fields of the source; `response` models the
`Option<reqwest::Response>` field, a live transport being the list of the
text chunks the remaining `chunk()` calls will deliver in order (the empty
list standing for a transport that ends on the next read); transport read
errors are outside the model, which covers the claims below.
`previousResponseId` is the shared correlation-identifier cell. -/
structure SseStream where
  buffer : List Char
  done : Bool
  response : Option (List String)
  previousResponseId : Option String
  deriving Repr, DecidableEq

deriving instance DecidableEq for Except

/-- One pass of the line-extraction loop of `next_chunk`
(ai/azure_vision.rs lines 265-293): consume complete lines from the buffer
until one yields (a delta or an error), finishes the stream (a done
classification), or no complete line is left (more network data needed).
Fuel-structural; the fuel is instantiated below with one more than the
buffer length, which one newline consumed per iteration can never
exhaust. -/
inductive DrainOut where
  | yield (r : Except AiError String) (rest : List Char) (pid : Option String)
  | finished (rest : List Char) (pid : Option String)
  | needMore (rest : List Char) (pid : Option String)
  deriving Repr, DecidableEq

def drainBuffer : Nat → List Char → Option String → DrainOut
  | 0, buf, pid => .needMore buf pid
  | fuel + 1, buf, pid =>
    match breakLine buf with
    | none => .needMore buf pid
    | some (rawLine, rest) =>
      let line := dropTrailingCr rawLine
      if line = [] then drainBuffer fuel rest pid
      else
        match dropPrefixChars "data: ".toList line with
        | some data =>
          match parse_sse_data data with
          | .delta text => .yield (.ok text) rest pid
          | .responseId id => drainBuffer fuel rest (some id)
          | .done => .finished rest pid
          | .skip => drainBuffer fuel rest pid
          | .error e => .yield (.error e) rest pid
        | none => drainBuffer fuel rest pid

/-- Model of the end-of-transport flush of `next_chunk`
(ai/azure_vision.rs lines 309-327): the stream is marked done and a
non-empty trimmed buffer remainder is parsed one final time.  Returns the
yielded result, the new buffer and the new correlation identifier. -/
def flushResult (buf : List Char) (pid : Option String) :
    Option (Except AiError String) × List Char × Option String :=
  let t := trimChars buf
  if t = [] then (none, buf, pid)
  else
    match dropPrefixChars "data: ".toList t with
    | some data =>
      match parse_sse_data data with
      | .delta text => (some (.ok text), [], pid)
      | .responseId id => (none, [], some id)
      | .error e => (some (.error e), [], pid)
      | _ => (none, [], pid)
    | none => (none, [], pid)

/-- The network phase of `next_chunk` (ai/azure_vision.rs lines 296-335):
append the next transport chunk to the buffer and retry line extraction;
when the transport is exhausted, run the flush.  Structural on the list of
remaining chunks. -/
def sseNetLoop : List String → List Char → Option String →
    Option (Except AiError String) × SseStream
  | [], buf, pid =>
    let r := flushResult buf pid
    (r.1, ⟨r.2.1, true, some [], r.2.2⟩)
  | chunk :: chunks, buf, pid =>
    let buf2 := buf ++ chunk.toList
    match drainBuffer (buf2.length + 1) buf2 pid with
    | .yield r rest pid2 => (r, ⟨rest, false, some chunks, pid2⟩)
    | .finished rest pid2 => (none, ⟨rest, true, some chunks, pid2⟩)
    | .needMore rest pid2 => sseNetLoop chunks rest pid2

/-- Model of `ResponsesTextStream::next_chunk` (ai/azure_vision.rs
lines 260-337): returns the yielded item (as the source returns
`Option<Result<String, AiError>>`) together with the stream state after
the call. -/
def next_chunk (s : SseStream) : Option (Except AiError String) × SseStream :=
  if s.done then (none, s)
  else
    match drainBuffer (s.buffer.length + 1) s.buffer s.previousResponseId with
    | .yield r rest pid => (r, ⟨rest, false, s.response, pid⟩)
    | .finished rest pid => (none, ⟨rest, true, s.response, pid⟩)
    | .needMore rest pid =>
      match s.response with
      | none => (none, ⟨rest, true, none, pid⟩)
      | some chunks => sseNetLoop chunks rest pid

/-! ## Vision client (ai/azure_vision.rs) -/

/-- Model of `AzureVisionClient` (ai/azure_vision.rs lines 9-18): the
configuration fields plus the shared `previous_response_id` cell (the
`reqwest::Client` handle carries no state the claims depend on). -/
structure AzureVisionClient where
  endpoint : String
  apiKey : String
  model : String
  systemPrompt : String
  useBearer : Bool
  previousResponseId : Option String
  deriving Repr, DecidableEq

/-- Model of `AzureVisionClient::new` (lines 21-36): bearer auth off and no
stored correlation identifier. -/
def azureVisionClientNew (endpoint apiKey model systemPrompt : String) : AzureVisionClient :=
  ⟨endpoint, apiKey, model, systemPrompt, false, none⟩

/-- Model of `AzureVisionClient::with_bearer` (lines 39-42). -/
def withBearer (c : AzureVisionClient) : AzureVisionClient :=
  { c with useBearer := true }

/-- Model of the request body built by `build_request_body`
(ai/azure_vision.rs lines 44-72), keeping the fields that vary between
requests; the constant fields (`stream: true`, `max_output_tokens: 300`,
`truncation: auto`, the fixed user message wrapping the image) are the
same in every request and are omitted.  `previousResponseId` is `none`
exactly when the source omits the `previous_response_id` member. -/
structure RequestBody where
  model : String
  frameData : String
  instructions : String
  previousResponseId : Option String
  deriving Repr, DecidableEq

def build_request_body (c : AzureVisionClient) (frameData systemPrompt : String) : RequestBody :=
  ⟨c.model, frameData, systemPrompt, c.previousResponseId⟩

/-- An HTTP response as the retry logic observes it: numeric status and
body text (the body is read either for the error classification or as the
SSE stream). -/
structure HttpResponse where
  status : Nat
  body : String
  deriving Repr, DecidableEq

/-- Model of `reqwest::StatusCode::is_success` (2xx). -/
def isSuccessStatus (s : Nat) : Bool := 200 ≤ s && s ≤ 299

/-- Outcome of `analyze_frame`: a streaming handle over the first or the
retry response, or a propagated error. -/
inductive AnalyzeOutcome where
  | stream (retried : Bool)
  | failure (e : AiError)
  deriving Repr, DecidableEq

/-- Model of `AzureVisionClient::analyze_frame` (ai/azure_vision.rs
lines 77-163).  The two possible network exchanges are supplied as
`resp1` (the response to the first request) and `resp2` (the response the
server would give a retry; it is only consulted when the source sends the
retry).  Returns the client state after the call (the correlation cell),
the list of request bodies actually sent, in order, and the outcome.
The status rendering in error messages uses the bare status number (the
source formats the reqwest status).  Transport-level send failures are
outside the model. -/
def analyze_frame (c : AzureVisionClient) (frameData systemPrompt : String)
    (resp1 resp2 : HttpResponse) :
    AzureVisionClient × List RequestBody × AnalyzeOutcome :=
  let req1 := build_request_body c frameData systemPrompt
  if isSuccessStatus resp1.status then
    (c, [req1], .stream false)
  else if resp1.status = 400 && strContains resp1.body "previous_response_not_found" then
    let c2 := { c with previousResponseId := none }
    let req2 := build_request_body c2 frameData systemPrompt
    if isSuccessStatus resp2.status then
      (c2, [req1, req2], .stream true)
    else
      (c2, [req1, req2],
        .failure (.connectionError
          ("HTTP " ++ toString resp2.status ++ ": " ++ resp2.body)))
  else if resp1.status = 401 ∨ resp1.status = 403 then
    (c, [req1], .failure (.authError resp1.body))
  else if resp1.status = 429 then
    (c, [req1], .failure (.rateLimited 1000))
  else
    (c, [req1],
      .failure (.connectionError ("HTTP " ++ toString resp1.status ++ ": " ++ resp1.body)))

/-! ## WebSocket event parser and session (ai/azure_audio.rs) -/

/-- Model of `AudioEvent` (ai/azure_audio.rs lines 67-74). -/
inductive AudioEvent where
  | delta (text : String)
  | done
  | skip
  deriving Repr, DecidableEq

/-- Model of `parse_event` (ai/azure_audio.rs lines 77-109), over the
characters of one inbound WebSocket text message. -/
def parse_event (text : List Char) : Except AiError AudioEvent :=
  match jsonParseChars text with
  | none => .error (.invalidResponse ("bad JSON: " ++ jsonErrText))
  | some v =>
    let t := (v.get "type").bind Json.asStr
    if t = some "response.text.delta" ∨ t = some "response.audio_transcript.delta" then
      .ok (.delta (((v.get "delta").bind Json.asStr).getD ""))
    else if t = some "response.done" then .ok .done
    else if t = some "response.text.done" ∨ t = some "response.audio_transcript.done" then
      .ok .skip
    else if t = some "error" then
      let msg := ((v.pointerAt ["error", "message"]).bind Json.asStr).getD "unknown error"
      let code := ((v.pointerAt ["error", "code"]).bind Json.asStr).getD ""
      .error (.modelError ("[" ++ code ++ "] " ++ msg))
    else .ok .skip

/-- Model of the reader-task body of `start_audio_stream`
(ai/azure_audio.rs lines 199-233) for one inbound text message: the list
of values forwarded on the response channel and whether the read loop
continues (a parse error is forwarded and breaks the loop; a done
classification forwards the empty string as the turn-completion
sentinel). -/
def readerForward (text : List Char) : List (Except AiError String) × Bool :=
  match parse_event text with
  | .ok (.delta d) => ([.ok d], true)
  | .ok .done => ([.ok ""], true)
  | .ok .skip => ([], true)
  | .error e => ([.error e], false)

/-- The outbound messages of `RealtimeAudioSession` the commit cadence is
about; the JSON payloads built by `build_audio_append` (base64 of the
chunk), `build_audio_commit` and `build_response_create` are fixed by the
message kind. -/
inductive RealtimeMsg where
  | append
  | commit
  | responseCreate
  deriving Repr, DecidableEq

/-- Model of the counter state of `RealtimeAudioSession`
(ai/azure_audio.rs lines 22-29); the channel handles carry no state the
claims depend on. -/
structure RealtimeAudioSession where
  chunksSinceCommit : Nat
  commitInterval : Nat
  deriving Repr, DecidableEq

/-- The session as constructed by `start_audio_stream`
(ai/azure_audio.rs lines 236-241): counter 0, commit interval 60. -/
def freshRealtimeSession : RealtimeAudioSession := ⟨0, 60⟩

/-- Model of `RealtimeAudioSession::send_audio` (ai/azure_audio.rs
lines 255-281), success path: the append message is queued, the counter is
incremented, and when it reaches the commit interval it is reset and the
commit and response.create messages are queued in that order.  Returns the
new session state and the messages sent by this call, in order. -/
def send_audio (s : RealtimeAudioSession) : RealtimeAudioSession × List RealtimeMsg :=
  let c := s.chunksSinceCommit + 1
  if c ≥ s.commitInterval then
    (⟨0, s.commitInterval⟩, [.append, .commit, .responseCreate])
  else
    (⟨c, s.commitInterval⟩, [.append])

/-- The session state after n successful `send_audio` calls on a fresh
session. -/
def sessionAfter : Nat → RealtimeAudioSession
  | 0 => freshRealtimeSession
  | n + 1 => (send_audio (sessionAfter n)).1

/-! ## Stream orchestrator (stream_manager.rs) -/

/-- Model of `AzureAudioClient` (ai/azure_audio.rs lines 14-19). -/
structure AzureAudioClient where
  endpoint : String
  apiKey : String
  deployment : String
  systemPrompt : String
  deriving Repr, DecidableEq

/-- Model of the `StreamManager` state (stream_manager.rs lines 39-47),
field for field: the optional vision provider, the vision system prompt,
the shared id counter, the optional audio provider, the optional live
audio session, and the audio prompt.  The struct holds no conversation
or context collection of any kind. -/
structure StreamManager where
  provider : Option AzureVisionClient
  systemPrompt : String
  nextId : Nat
  audioProvider : Option AzureAudioClient
  audioSession : Option RealtimeAudioSession
  audioPrompt : String
  deriving Repr, DecidableEq

/-- Model of `StreamManager::new` (stream_manager.rs lines 56-65). -/
def streamManagerNew : StreamManager := ⟨none, "", 1, none, none, ""⟩

/-- Model of `StreamManager::configure_azure` (stream_manager.rs
lines 68-83): build a fresh `AzureVisionClient` (bearer auth when asked),
install it as the provider, and store the prompt. -/
def configure_azure (sm : StreamManager)
    (endpoint apiKey deployment systemPrompt : String) (useBearer : Bool) : StreamManager :=
  let client := azureVisionClientNew endpoint apiKey deployment systemPrompt
  let client := if useBearer then withBearer client else client
  { sm with provider := some client, systemPrompt := systemPrompt }

/-- Model of one allocation from the shared `next_id` counter, the
identical lock-read-increment block at stream_manager.rs lines 279-284
(vision analyses), 142-147 and 163-168 (audio turns): return the current
value and store the incremented value, with the u64 wrap explicit. -/
def alloc_suggestion_id (counter : Nat) : Nat × Nat :=
  (counter, (counter + 1) % 2 ^ 64)

/-- The counter value after k allocations, starting from the initial
value 1 of `StreamManager::new`. -/
def counterAfter : Nat → Nat
  | 0 => 1
  | k + 1 => (alloc_suggestion_id (counterAfter k)).2

/-- The identity handed out by the k-th allocation (0-indexed). -/
def idAt (k : Nat) : Nat := (alloc_suggestion_id (counterAfter k)).1

/-- Events emitted to the UI sink, as far as the claims observe them. -/
inductive EmittedEvent where
  | suggestion (text : String) (done : Bool) (id : Nat) (source : String)
  | aiError (message : String)
  | audioStatus (status : String)
  deriving Repr, DecidableEq

/-- Model of one iteration of the audio reader loop of
`start_audio_session` (stream_manager.rs lines 149-199): `msg` is the
value received from the response channel (`none` = channel closed),
`suggestionId` the current turn identity, `counter` the shared id counter.
Returns the events emitted by this iteration and, when the loop
continues, the turn identity and counter for the next iteration (`none` =
the loop breaks). -/
def audio_reader_step (msg : Option (Except AiError String))
    (suggestionId counter : Nat) :
    List EmittedEvent × Option (Nat × Nat) :=
  match msg with
  | some (.ok t) =>
    if t = "" then
      ([.suggestion "" true suggestionId "audio"], some (alloc_suggestion_id counter))
    else
      ([.suggestion t false suggestionId "audio"], some (suggestionId, counter))
  | some (.error e) =>
    ([.aiError (renderAiError e), .audioStatus "error"], none)
  | none => ([], none)

/-! ## Supporting lemmas for the SSE claims -/

theorem breakLine_append_newline (xs rest : List Char) (h : '\n' ∉ xs) :
    breakLine (xs ++ '\n' :: rest) = some (xs, rest) := by
  induction xs with
  | nil => simp [breakLine]
  | cons c t ih =>
    have hc : ¬ (c = '\n') := fun hh => h (hh ▸ List.mem_cons_self c t)
    have ht : '\n' ∉ t := fun hh => h (List.mem_cons_of_mem c hh)
    show breakLine (c :: (t ++ '\n' :: rest)) = some (c :: t, rest)
    simp only [breakLine, if_neg hc, ih ht]

theorem dropTrailingCr_eq_self (xs : List Char) (h : '\r' ∉ xs) :
    dropTrailingCr xs = xs := by
  unfold dropTrailingCr
  have hd : xs.reverse.dropWhile (fun c => c = '\r') = xs.reverse := by
    cases hrev : xs.reverse with
    | nil => simp
    | cons c t =>
      have hc : c ∈ xs := by
        rw [← List.mem_reverse, hrev]
        exact List.mem_cons_self c t
      have : ¬ (c = '\r') := fun hh => h (hh ▸ hc)
      simp [List.dropWhile_cons, this]
  rw [hd, List.reverse_reverse]

theorem dropPrefixChars_append (p t : List Char) :
    dropPrefixChars p (p ++ t) = some t := by
  induction p with
  | nil => simp [dropPrefixChars]
  | cons c cs ih => simp [dropPrefixChars, ih]

/-! ## Claim C5 -/

/-- A stream whose buffer holds a malformed data line followed by a valid
delta line, over a transport with no further chunks. -/
def c5Stream : SseStream :=
  ⟨("data: notjson" ++ "\n" ++ "data: "
      ++ "\x7b\"type\":\"response.output_text.delta\",\"delta\":\"hi\"\x7d"
      ++ "\n").toList,
    false, some [], none⟩

/-- C5 counterexample: a malformed `data:` payload makes `next_chunk`
return the InvalidResponse parse error, but it does not end the stream —
the done flag stays false and the very next `next_chunk` call returns the
following delta rather than `none`. -/
theorem next_chunk_error_then_more_output :
    (next_chunk c5Stream).1
      = some (.error (.invalidResponse ("Invalid JSON in SSE: " ++ jsonErrText))) ∧
    (next_chunk c5Stream).2.done = false ∧
    (next_chunk (next_chunk c5Stream).2).1 = some (.ok "hi") :=
  ⟨rfl, rfl, rfl⟩

/-- C5 amended: a `data:` payload with malformed JSON yields a parse error
that `next_chunk` surfaces to the caller as an InvalidResponse value, with
the rest of the buffer retained; the error does not terminate the stream
(the done flag stays false, so later calls keep parsing) — it is the
orchestrator that stops reading after an error. -/
theorem next_chunk_surfaces_parse_error (bad rest : List Char)
    (resp : Option (List String)) (pid : Option String)
    (hnl : '\n' ∉ bad) (hcr : '\r' ∉ bad)
    (hdone : trimChars bad ≠ "[DONE]".toList)
    (hjson : jsonParseChars (trimChars bad) = none) :
    next_chunk ⟨"data: ".toList ++ bad ++ '\n' :: rest, false, resp, pid⟩
      = (some (.error (.invalidResponse ("Invalid JSON in SSE: " ++ jsonErrText))),
         ⟨rest, false, resp, pid⟩) := by
  have hline : '\n' ∉ ("data: ".toList ++ bad) := by
    intro hmem
    rcases List.mem_append.mp hmem with hmem | hmem
    · revert hmem
      decide
    · exact hnl hmem
  have hcrline : '\r' ∉ ("data: ".toList ++ bad) := by
    intro hmem
    rcases List.mem_append.mp hmem with hmem | hmem
    · revert hmem
      decide
    · exact hcr hmem
  have hbreak : breakLine ("data: ".toList ++ bad ++ '\n' :: rest)
      = some ("data: ".toList ++ bad, rest) := by
    have h0 := breakLine_append_newline ("data: ".toList ++ bad) rest hline
    rwa [List.append_assoc] at h0
  have hparse : parse_sse_data bad
      = .error (.invalidResponse ("Invalid JSON in SSE: " ++ jsonErrText)) := by
    unfold parse_sse_data
    rw [if_neg hdone, hjson]
  have hne : ¬ ("data: ".toList ++ bad = []) := by simp
  have hdrain : ∀ fuel, drainBuffer (fuel + 1) ("data: ".toList ++ bad ++ '\n' :: rest) pid
      = .yield (.error (.invalidResponse ("Invalid JSON in SSE: " ++ jsonErrText))) rest pid := by
    intro fuel
    simp only [drainBuffer, hbreak, dropTrailingCr_eq_self _ hcrline, if_neg hne,
      dropPrefixChars_append, hparse]
  simp only [next_chunk, hdrain]
  rfl

/-- C5 witness: the amended statement instantiated at the payload
"notjson", an empty remaining buffer and a live transport. -/
theorem next_chunk_surfaces_parse_error_witness :
    next_chunk ⟨"data: ".toList ++ "notjson".toList ++ '\n' :: [], false, some [], none⟩
      = (some (.error (.invalidResponse ("Invalid JSON in SSE: " ++ jsonErrText))),
         ⟨[], false, some [], none⟩) :=
  next_chunk_surfaces_parse_error "notjson".toList [] (some []) none
    (by decide) (by decide) (by decide) rfl

/-! ## Claim C4 -/

/-- A configured vision client holding a stale correlation identifier. -/
def c4Client : AzureVisionClient :=
  ⟨"https://e.openai.azure.com", "key", "gpt-4o", "prompt", false, some "resp_old"⟩

/-- C4 counterexample: a 402 response — a 400-class (4xx) status — whose
body indicates a stale correlation identifier does not trigger the
recovery: exactly one request is sent (no retry, even though the supplied
retry response would have succeeded), the stored identifier is not
cleared, and the error is propagated.  The source retries only on the
exact status 400. -/
theorem stale_id_402_not_retried :
    (analyze_frame c4Client "frame" "prompt"
        ⟨402, "previous_response_not_found"⟩ ⟨200, ""⟩).2.1.length = 1 ∧
    (analyze_frame c4Client "frame" "prompt"
        ⟨402, "previous_response_not_found"⟩ ⟨200, ""⟩).1.previousResponseId
      = some "resp_old" ∧
    (analyze_frame c4Client "frame" "prompt"
        ⟨402, "previous_response_not_found"⟩ ⟨200, ""⟩).2.2
      = .failure (.connectionError "HTTP 402: previous_response_not_found") :=
  ⟨rfl, rfl, rfl⟩

/-- C4 amended: for a response with status exactly 400 whose body contains
the stale-correlation marker, the client clears the stored identifier and
retries exactly once with a fresh request body that omits the identifier
(two requests in total, the second without the identifier); when the retry
also fails, the error is propagated with no further retry. -/
theorem stale_id_400_retries_once (c : AzureVisionClient) (f p : String)
    (resp1 resp2 : HttpResponse)
    (h400 : resp1.status = 400)
    (hstale : strContains resp1.body "previous_response_not_found" = true) :
    (analyze_frame c f p resp1 resp2).1 = { c with previousResponseId := none } ∧
    (analyze_frame c f p resp1 resp2).2.1
      = [build_request_body c f p,
         build_request_body { c with previousResponseId := none } f p] ∧
    (build_request_body { c with previousResponseId := none } f p).previousResponseId
      = none ∧
    (isSuccessStatus resp2.status = true →
      (analyze_frame c f p resp1 resp2).2.2 = .stream true) ∧
    (isSuccessStatus resp2.status = false →
      (analyze_frame c f p resp1 resp2).2.2
        = .failure (.connectionError
            ("HTTP " ++ toString resp2.status ++ ": " ++ resp2.body))) := by
  have h1 : isSuccessStatus 400 = false := rfl
  cases hs : isSuccessStatus resp2.status <;>
    simp [analyze_frame, h1, h400, hstale, hs, build_request_body]

/-- C4 witness: the amended statement instantiated at a client with a
stored identifier, a stale-400 first response, and a failing retry
response. -/
theorem stale_id_400_retries_once_witness :
    (analyze_frame c4Client "f" "p"
        ⟨400, "previous_response_not_found"⟩ ⟨500, "boom"⟩).2.1
      = [build_request_body c4Client "f" "p",
         build_request_body { c4Client with previousResponseId := none } "f" "p"] ∧
    (analyze_frame c4Client "f" "p"
        ⟨400, "previous_response_not_found"⟩ ⟨500, "boom"⟩).2.2
      = .failure (.connectionError "HTTP 500: boom") :=
  have h := stale_id_400_retries_once c4Client "f" "p"
    ⟨400, "previous_response_not_found"⟩ ⟨500, "boom"⟩ rfl rfl
  ⟨h.2.1, h.2.2.2.2 rfl⟩

/-! ## Claim C6 -/

theorem counterAfter_eq (k : Nat) (h : k + 1 < 2 ^ 64) : counterAfter k = k + 1 := by
  induction k with
  | zero => rfl
  | succ n ih =>
    have hn : n + 1 < 2 ^ 64 := by omega
    show (alloc_suggestion_id (counterAfter n)).2 = n + 2
    rw [ih hn]
    show (n + 1 + 1) % 2 ^ 64 = n + 2
    exact Nat.mod_eq_of_lt (by omega)

/-- C6: identities drawn from the shared counter (the same
lock-read-increment block on both the vision path and the audio path) are
1, 2, 3, ... in allocation order, strictly increasing and never reused,
for every allocation index a real execution can reach (the u64 counter is
modelled with its wrap explicit; the bound excludes only the unreachable
2 ^ 64 - 1st allocation). -/
theorem suggestion_ids_strictly_increasing (i j : Nat)
    (hij : i < j) (hj : j + 1 < 2 ^ 64) :
    idAt i = i + 1 ∧ idAt j = j + 1 ∧ idAt i < idAt j := by
  have hi : i + 1 < 2 ^ 64 := by omega
  have h1 : idAt i = i + 1 := counterAfter_eq i hi
  have h2 : idAt j = j + 1 := counterAfter_eq j hj
  exact ⟨h1, h2, by omega⟩

/-- C6 witness: the first two allocations yield 1 then 2. -/
theorem suggestion_ids_strictly_increasing_witness :
    idAt 0 = 1 ∧ idAt 1 = 2 ∧ idAt 0 < idAt 1 :=
  suggestion_ids_strictly_increasing 0 1 (by norm_num) (by norm_num)

/-! ## Claim C7 -/

theorem sessionAfter_eq (n : Nat) : sessionAfter n = ⟨n % 60, 60⟩ := by
  induction n with
  | zero => rfl
  | succ k ih =>
    show (send_audio (sessionAfter k)).1 = _
    rw [ih]
    unfold send_audio
    by_cases h : k % 60 + 1 ≥ 60
    · have h0 : (k + 1) % 60 = 0 := by omega
      simp [h, h0]
    · have h1 : (k + 1) % 60 = k % 60 + 1 := by omega
      simp [h, h1]

/-- C7: on a fresh session (counter 0, commit interval 60), the counter
after n successful send_audio calls is n mod 60; the (n+1)st call queues
the append followed immediately by the commit / response.create pair
exactly when it is the 60th, 120th, ... call since the last commit (that
is, when (n+1) is divisible by 60), at which point the counter resets to
0; every other call queues only the append message. -/
theorem send_audio_commit_cadence (n : Nat) :
    (sessionAfter n).chunksSinceCommit = n % 60 ∧
    ((send_audio (sessionAfter n)).2
        = [.append, .commit, .responseCreate] ↔ (n + 1) % 60 = 0) ∧
    ((n + 1) % 60 ≠ 0 → (send_audio (sessionAfter n)).2 = [.append]) ∧
    (send_audio (sessionAfter n)).1.chunksSinceCommit = (n + 1) % 60 := by
  rw [sessionAfter_eq]
  unfold send_audio
  by_cases h : n % 60 + 1 ≥ 60
  · have h0 : (n + 1) % 60 = 0 := by omega
    simp [h, h0]
  · have h1 : (n + 1) % 60 = n % 60 + 1 := by omega
    have h2 : (n + 1) % 60 ≠ 0 := by omega
    simp [h, h1, h2]

/-- C7 witness: the 60th call emits the append/commit/response.create
triple and the first call emits the append alone. -/
theorem send_audio_commit_cadence_witness :
    (send_audio (sessionAfter 59)).2 = [.append, .commit, .responseCreate] ∧
    (send_audio (sessionAfter 0)).2 = [.append] :=
  ⟨(send_audio_commit_cadence 59).2.1.mpr (by norm_num),
   (send_audio_commit_cadence 0).2.2.1 (by norm_num)⟩

/-! ## Claim C1 -/

/-- C1: what `configure_azure` actually does to the orchestrator state —
it installs a freshly built provider (whose correlation identifier cell is
none) and stores the prompt, and it changes nothing else.  The
`StreamManager` state, modelled field for field from the source struct,
contains no rolling conversation context, so there is no entry collection
that the reconfiguration could clear: the only conversational grounding
the code keeps is the correlation identifier inside the provider, reset
here because the provider is rebuilt from scratch. -/
theorem configure_azure_swaps_provider_only (sm : StreamManager)
    (e k d p : String) (b : Bool) :
    (configure_azure sm e k d p b).provider
      = some { endpoint := e, apiKey := k, model := d, systemPrompt := p,
               useBearer := b, previousResponseId := none } ∧
    (configure_azure sm e k d p b).systemPrompt = p ∧
    (configure_azure sm e k d p b).nextId = sm.nextId ∧
    (configure_azure sm e k d p b).audioProvider = sm.audioProvider ∧
    (configure_azure sm e k d p b).audioSession = sm.audioSession ∧
    (configure_azure sm e k d p b).audioPrompt = sm.audioPrompt := by
  cases b <;> simp [configure_azure, azureVisionClientNew, withBearer]

/-! ## Claim C10 -/

/-- C10: an inbound delta event whose delta field is missing (or empty, or
not a string) parses to a delta with empty text, which the reader task
forwards as the empty chunk — exactly the value it forwards for a genuine
response.done event — and which the orchestrator reader loop answers by
emitting a done-flagged suggestion for the current turn and allocating a
fresh turn identity from the shared counter. -/
theorem empty_delta_equals_turn_done (s sDone : List Char) (j : Json)
    (hs : jsonParseChars s = some j)
    (ht : (j.get "type").bind Json.asStr = some "response.text.delta" ∨
          (j.get "type").bind Json.asStr = some "response.audio_transcript.delta")
    (hd : ((j.get "delta").bind Json.asStr).getD "" = "")
    (hdone : parse_event sDone = .ok .done) :
    parse_event s = .ok (.delta "") ∧
    readerForward s = ([.ok ""], true) ∧
    readerForward s = readerForward sDone ∧
    (∀ sid counter, audio_reader_step (some (.ok "")) sid counter
      = ([.suggestion "" true sid "audio"], some (alloc_suggestion_id counter))) := by
  have hp : parse_event s = .ok (.delta "") := by
    unfold parse_event
    rw [hs]
    simp only
    rw [if_pos ht, hd]
  have hf : readerForward s = ([.ok ""], true) := by
    unfold readerForward
    rw [hp]
  have hfd : readerForward sDone = ([.ok ""], true) := by
    unfold readerForward
    rw [hdone]
  exact ⟨hp, hf, hf.trans hfd.symm, fun sid counter => rfl⟩

/-- The inbound transcript-delta event with no delta field, and the
genuine turn-completion event, used as the C10 witness inputs. -/
def c10DeltaEvent : List Char :=
  "\x7b\"type\":\"response.audio_transcript.delta\"\x7d".toList

def c10DoneEvent : List Char := "\x7b\"type\":\"response.done\"\x7d".toList

/-- C10 witness: the statement instantiated at a transcript-delta event
without a delta field and at a response.done event. -/
theorem empty_delta_equals_turn_done_witness :
    parse_event c10DeltaEvent = .ok (.delta "") ∧
    readerForward c10DeltaEvent = readerForward c10DoneEvent ∧
    audio_reader_step (some (.ok "")) 7 9
      = ([.suggestion "" true 7 "audio"], some (alloc_suggestion_id 9)) :=
  have h := empty_delta_equals_turn_done c10DeltaEvent c10DoneEvent
    (Json.obj [("type", Json.str "response.audio_transcript.delta")])
    rfl (Or.inr rfl) rfl rfl
  ⟨h.1, h.2.2.1, h.2.2.2 7 9⟩
